import Mathlib

/-!
# Bit access on a status byte (main.c)

A shallow embedding of `main.c`: the global `status_byte`, the bit field
`Caracteristicas` laid over it, the function `extrai_bit_generico`, and `main`
with its two manual extraction loops.

Conventions of the embedding.

* Values of type `uint8_t` and non-negative values of type `int` are natural
  numbers; a conversion to `uint8_t` is written `to_uint8` (reduction modulo 256).
* Loop counters and the index parameter `n` have C type `int` and are integers.
* A shift at type `int` (32 bits) has a result only where C defines one; the
  operations are therefore `Option`-valued, `none` standing for "no defined
  result". The loops carry a fuel argument and return `none` when it runs out.
* `printf` appends one record (format string and integer arguments) to the
  standard output held in the program state.
* The order in which a compiler allocates bit fields inside the byte is
  implementation-defined; it is the parameter `BitOrder` of the embedding.
-/

namespace BitAccess

/-! ## Machine arithmetic -/

/-- Conversion of a non-negative integer value to `uint8_t`. -/
def to_uint8 (x : Nat) : Nat := x % 256

/-- Left shift `a << n` at type `int` (32 bits), for a non-negative `a`: defined when
`0 ≤ n < 32` and the result `a * 2^n` is representable in `int`. -/
def shl_int (a : Nat) (n : Int) : Option Nat :=
  if 0 ≤ n ∧ n < 32 ∧ a <<< n.toNat < 2 ^ 31 then some (a <<< n.toNat) else none

/-- Right shift `a >> n` at type `int` (32 bits), for a non-negative `a`: defined when
`0 ≤ n < 32`. -/
def shr_int (a : Nat) (n : Int) : Option Nat :=
  if 0 ≤ n ∧ n < 32 then some (a >>> n.toNat) else none

/-- Conversion of a C truth value (`bool`, or the `int` result of `!=`) to an integer. -/
def bool_to_nat (t : Bool) : Nat := if t then 1 else 0

/-! ## Program state and output -/

/-- One call of `printf`: the format string and the integer arguments passed to it. -/
structure Printed where
  fmt : String
  args : List Int
deriving DecidableEq, Repr

/-- The state of the program: the global `status_byte` and what was written to stdout. -/
structure State where
  status_byte : Nat
  stdout : List Printed
deriving DecidableEq, Repr

/-- The global `uint8_t status_byte = 0b10110010;`. -/
def status_byte : Nat := 0b10110010

/-- The state in which `main` is entered. -/
def State.initial : State := ⟨BitAccess.status_byte, []⟩

/-- The call `printf(fmt, args...)`: appends to stdout, leaves the globals alone. -/
def printf (fmt : String) (args : List Int) (s : State) : State :=
  { s with stdout := s.stdout ++ [⟨fmt, args⟩] }

/-! ## The bit field `Caracteristicas` -/

/-- The struct `Caracteristicas`: eight one-bit fields, in declaration order. -/
structure Caracteristicas where
  disponivel : Nat
  carregado : Nat
  ativo : Nat
  configurado : Nat
  validado : Nat
  bloqueado : Nat
  erro : Nat
  pronto : Nat
deriving DecidableEq, Repr

/-- How the compiler allocates consecutive bit fields inside their byte: starting at the
least significant bit, or starting at the most significant bit. -/
inductive BitOrder where
  | lsb_first
  | msb_first
deriving DecidableEq, Repr

/-- Bit position, inside the byte, of the one-bit field declared at position `k` (0..7). -/
def BitOrder.position (order : BitOrder) (k : Nat) : Nat :=
  match order with
  | .lsb_first => k
  | .msb_first => 7 - k

/-- Reading the one-bit field declared at position `k` out of the byte `byte`. -/
def read_field (order : BitOrder) (byte : Nat) (k : Nat) : Nat :=
  (byte >>> order.position k) % 2

/-- The view `(Caracteristicas *)&byte`: the struct read off the storage byte. -/
def Caracteristicas.view (order : BitOrder) (byte : Nat) : Caracteristicas where
  disponivel := read_field order byte 0
  carregado := read_field order byte 1
  ativo := read_field order byte 2
  configurado := read_field order byte 3
  validado := read_field order byte 4
  bloqueado := read_field order byte 5
  erro := read_field order byte 6
  pronto := read_field order byte 7

/-! ## `extrai_bit_generico` -/

/-- The function `bool extrai_bit_generico(uint8_t byte, int n)`:
`return (byte & (1 << n)) != 0;`. -/
def extrai_bit_generico (byte : Nat) (n : Int) : Option Bool := do
  let mask ← shl_int 1 n
  pure ((byte &&& mask) != 0)

/-! ## The loops of `main` -/

/-- Body of the loop LSB -> MSB: the `valor` computed for counter `i`. -/
def valor_lsb_msb (byte : Nat) (i : Int) : Option Nat := do
  let mascara := to_uint8 (← shl_int 1 i)
  let valor := to_uint8 (bool_to_nat ((byte &&& mascara) != 0))
  pure valor

/-- Body of the loop MSB -> LSB: the `valor` computed for counter `i`. -/
def valor_msb_lsb (byte : Nat) (i : Int) : Option Nat := do
  let mascara := to_uint8 (← shl_int 1 i)
  let bit_isolado := to_uint8 (byte &&& mascara)
  let valor := to_uint8 (← shr_int bit_isolado i)
  pure valor

/-- The loop `for (int i = 0; i < 8; i++)`, entered with counter `i`. -/
def loop_lsb_msb : Nat → Int → State → Option State
  | 0, _, _ => none
  | fuel + 1, i, s =>
    if i < 8 then do
      let valor ← valor_lsb_msb s.status_byte i
      loop_lsb_msb fuel (i + 1) (printf "Bit %d (LSB -> MSB): %d\n" [i, valor] s)
    else some s

/-- The loop `for (int i = 7; i >= 0; i--)`, entered with counter `i`. -/
def loop_msb_lsb : Nat → Int → State → Option State
  | 0, _, _ => none
  | fuel + 1, i, s =>
    if i ≥ 0 then do
      let valor ← valor_msb_lsb s.status_byte i
      loop_msb_lsb fuel (i - 1) (printf "Bit %d (MSB -> LSB): %d\n" [i, valor] s)
    else some s

/-! ## `main` -/

/-- The header and bit-field part of `main` (lines up to the first loop). -/
def main_bit_field (order : BitOrder) (s : State) : State :=
  let s := printf "Demonstração de Manipulação de Bits em C\n" [] s
  let s := printf "==========================================\n" [] s
  let s := printf "Byte de Status (Decimal): %d\n" [s.status_byte] s
  let s := printf "Byte de Status (Binário): 10110010\n" [] s
  let s := printf "\n--- Extração com Campo de Bits (Bit Field) ---\n" [] s
  let c := fun (t : State) => Caracteristicas.view order t.status_byte
  let s := printf "Campo de Bits (Ordem LSB -> MSB):\n" [] s
  let s := printf "  Disponível (Bit 0 - LSB): %d\n" [(c s).disponivel] s
  let s := printf "  Carregado  (Bit 1):      %d\n" [(c s).carregado] s
  let s := printf "  Ativo      (Bit 2):      %d\n" [(c s).ativo] s
  let s := printf "  Configurado(Bit 3):      %d\n" [(c s).configurado] s
  let s := printf "  Validado   (Bit 4):      %d\n" [(c s).validado] s
  let s := printf "  Bloqueado  (Bit 5):      %d\n" [(c s).bloqueado] s
  let s := printf "  Erro       (Bit 6):      %d\n" [(c s).erro] s
  let s := printf "  Pronto     (Bit 7 - MSB):%d\n" [(c s).pronto] s
  s

/-- The last part of `main`: the four calls of `extrai_bit_generico`. -/
def main_generico (s : State) : Option State := do
  let s := printf "\n--- Extração com Função Genérica (extrai_bit_generico) ---\n" [] s
  let r ← extrai_bit_generico s.status_byte 7
  let s := printf "Acesso ao Bit 7 (MSB - Pronto):     %d\n" [bool_to_nat r] s
  let r ← extrai_bit_generico s.status_byte 6
  let s := printf "Acesso ao Bit 6 (Erro):             %d\n" [bool_to_nat r] s
  let r ← extrai_bit_generico s.status_byte 1
  let s := printf "Acesso ao Bit 1 (Carregado):        %d\n" [bool_to_nat r] s
  let r ← extrai_bit_generico s.status_byte 0
  let s := printf "Acesso ao Bit 0 (LSB - Disponível): %d\n" [bool_to_nat r] s
  pure s

/-- The function `int main()`: returns the exit code and the final state. -/
def main (fuel : Nat) (order : BitOrder) (s : State) : Option (Int × State) := do
  let s := main_bit_field order s
  let s := printf "\n--- Extração Manual: LSB -> MSB (Bit 0 para Bit 7) ---\n" [] s
  let s ← loop_lsb_msb fuel 0 s
  let s := printf "\n--- Extração Manual: MSB -> LSB (Bit 7 para Bit 0) ---\n" [] s
  let s ← loop_msb_lsb fuel 7 s
  let s ← main_generico s
  pure (0, s)

/-! ## Observations on the output -/

/-- The values printed by a loop: the second argument (`valor`) of each of its `printf`
calls, in output order. -/
def valores (out : List Printed) : List Int :=
  out.filterMap (fun p => p.args[1]?)

/-- The reference table of the specification (section 8) for the byte 178: the value of
bit index 0, 1, ..., 7. It is written from the specification, not from the code. -/
def spec_table : List Nat := [0, 1, 0, 0, 1, 1, 0, 1]

/-! ## The intermediates of the loop bodies -/

/-- The declaration `uint8_t mascara = 1 << i;` of both loops. -/
def mascara (i : Int) : Option Nat := do
  pure (to_uint8 (← shl_int 1 i))

/-- The declaration `uint8_t bit_isolado = status_byte & mascara;` of the loop MSB -> LSB,
after the declaration of `mascara`. -/
def bit_isolado (byte : Nat) (i : Int) : Option Nat := do
  let mascara ← mascara i
  pure (to_uint8 (byte &&& mascara))

/-! ## Binary digits -/

/-- The eight binary digits of a byte, bit 7 first, each obtained by a call of
`extrai_bit_generico`; there is no result when one of the calls has none. -/
def binary_digits (byte : Nat) : Option String := do
  let bits ← [7, 6, 5, 4, 3, 2, 1, 0].mapM (fun i : Int => extrai_bit_generico byte i)
  pure (String.mk (bits.map (fun t => if t then '1' else '0')))

end BitAccess

namespace BitAccess

/-! ## Arithmetic of masks and shifts -/

/-- The shift `1 << i` at type `int` is defined for `0 ≤ i ≤ 30` and is `2^i`. -/
theorem shl_int_one (i : Int) (h0 : 0 ≤ i) (h30 : i ≤ 30) :
    shl_int 1 i = some (2 ^ i.toNat) := by
  have hlt : i.toNat < 31 := by omega
  have hp : 2 ^ i.toNat < 2147483648 := by
    simpa using Nat.pow_lt_pow_right (a := 2) (by norm_num) hlt
  have h32 : i < 32 := by omega
  simp [shl_int, Nat.one_shiftLeft, h0, h32, hp]

/-- A right shift by `i` at type `int` is defined for `0 ≤ i ≤ 31`. -/
theorem shr_int_eq (a : Nat) (i : Int) (h0 : 0 ≤ i) (h31 : i ≤ 31) :
    shr_int a i = some (a >>> i.toNat) := by
  have h32 : i < 32 := by omega
  simp [shr_int, h0, h32]

/-- Masking with a single bit and testing against zero is the bit test. -/
theorem land_two_pow_bne (b k : Nat) : ((b &&& 2 ^ k) != 0) = b.testBit k := by
  rw [Nat.and_two_pow]
  cases b.testBit k <;> simp

/-- A single-bit mask for a position below 8 survives the conversion to `uint8_t`. -/
theorem to_uint8_two_pow (k : Nat) (hk : k ≤ 7) : to_uint8 (2 ^ k) = 2 ^ k := by
  have hp : 2 ^ k < 2 ^ 8 := Nat.pow_lt_pow_right (by norm_num) (by omega)
  exact Nat.mod_eq_of_lt (by simpa using hp)

/-- The truth value of a bit test, as the number `b / 2^k % 2`. -/
theorem bool_to_nat_testBit (b k : Nat) : bool_to_nat (b.testBit k) = b / 2 ^ k % 2 := by
  rw [Nat.testBit_to_div_mod, bool_to_nat]
  have h := Nat.mod_two_eq_zero_or_one (b / 2 ^ k)
  rcases h with h | h <;> simp [h]

/-- A truth value converted to an integer is 0 or 1. -/
theorem bool_to_nat_le_one (t : Bool) : bool_to_nat t ≤ 1 := by
  cases t <;> simp [bool_to_nat]

/-- Isolating bit `k` and shifting it down by `k` gives the bit as 0 or 1. -/
theorem land_two_pow_shiftRight (b k : Nat) :
    (b &&& 2 ^ k) >>> k = bool_to_nat (b.testBit k) := by
  rw [Nat.and_two_pow, Nat.shiftRight_eq_div_pow]
  cases b.testBit k <;> simp [bool_to_nat]

/-- The isolated bit `b & 2^k`, for a position below 8, fits in a `uint8_t`. -/
theorem to_uint8_land_two_pow (b k : Nat) (hk : k ≤ 7) :
    to_uint8 (b &&& 2 ^ k) = b &&& 2 ^ k := by
  have hp : 2 ^ k < 2 ^ 8 := Nat.pow_lt_pow_right (by norm_num) (by omega)
  have hle : b &&& 2 ^ k ≤ 2 ^ k := Nat.and_le_right
  exact Nat.mod_eq_of_lt (by omega)

/-! ## The three ways of reading one bit -/

/-- The function `extrai_bit_generico` on an index in `[0,7]` is the bit test. -/
theorem extrai_bit_generico_eq (b : Nat) (i : Int) (h0 : 0 ≤ i) (h7 : i ≤ 7) :
    extrai_bit_generico b i = some (b.testBit i.toNat) := by
  simp [extrai_bit_generico, shl_int_one i h0 (by omega), land_two_pow_bne]

/-- The body of the loop LSB -> MSB on a counter in `[0,7]`. -/
theorem valor_lsb_msb_eq (b : Nat) (i : Int) (h0 : 0 ≤ i) (h7 : i ≤ 7) :
    valor_lsb_msb b i = some (bool_to_nat (b.testBit i.toNat)) := by
  have hk : i.toNat ≤ 7 := by omega
  have h1 : to_uint8 (bool_to_nat (b.testBit i.toNat)) = bool_to_nat (b.testBit i.toNat) :=
    Nat.mod_eq_of_lt (by have := bool_to_nat_le_one (b.testBit i.toNat); omega)
  simp [valor_lsb_msb, shl_int_one i h0 (by omega), to_uint8_two_pow _ hk,
    land_two_pow_bne, h1]

/-- The body of the loop MSB -> LSB on a counter in `[0,7]`. -/
theorem valor_msb_lsb_eq (b : Nat) (i : Int) (h0 : 0 ≤ i) (h7 : i ≤ 7) :
    valor_msb_lsb b i = some (bool_to_nat (b.testBit i.toNat)) := by
  have hk : i.toNat ≤ 7 := by omega
  have h1 : to_uint8 (bool_to_nat (b.testBit i.toNat)) = bool_to_nat (b.testBit i.toNat) :=
    Nat.mod_eq_of_lt (by have := bool_to_nat_le_one (b.testBit i.toNat); omega)
  simp [valor_msb_lsb, shl_int_one i h0 (by omega), to_uint8_two_pow _ hk,
    to_uint8_land_two_pow _ _ hk, shr_int_eq _ i h0 (by omega), land_two_pow_shiftRight, h1]

/-- Reading a bit field under the LSB-first allocation is the bit test at its position. -/
theorem read_field_lsb_first (b k : Nat) :
    read_field .lsb_first b k = bool_to_nat (b.testBit k) := by
  rw [bool_to_nat_testBit, read_field, BitOrder.position, Nat.shiftRight_eq_div_pow]

/-- The allocation order matters: under the MSB-first allocation the first declared field
of the byte 178 reads bit 7, which is 1, while bit 0 is 0. -/
theorem read_field_msb_first_status_byte :
    read_field .msb_first status_byte 0 = 1 ∧ read_field .lsb_first status_byte 0 = 0 := by
  decide

end BitAccess

namespace BitAccess

/-! ## Running the loops and `main` -/

/-- The loop LSB -> MSB, entered at `i = 0` with fuel for its nine evaluations of the
condition, prints the eight bits in ascending order and leaves `status_byte` alone. -/
theorem loop_lsb_msb_run (fuel : Nat) (s : State) (h : 9 ≤ fuel) :
    loop_lsb_msb fuel 0 s = some ⟨s.status_byte, s.stdout ++
      [⟨"Bit %d (LSB -> MSB): %d\n", [0, bool_to_nat (s.status_byte.testBit 0)]⟩,
       ⟨"Bit %d (LSB -> MSB): %d\n", [1, bool_to_nat (s.status_byte.testBit 1)]⟩,
       ⟨"Bit %d (LSB -> MSB): %d\n", [2, bool_to_nat (s.status_byte.testBit 2)]⟩,
       ⟨"Bit %d (LSB -> MSB): %d\n", [3, bool_to_nat (s.status_byte.testBit 3)]⟩,
       ⟨"Bit %d (LSB -> MSB): %d\n", [4, bool_to_nat (s.status_byte.testBit 4)]⟩,
       ⟨"Bit %d (LSB -> MSB): %d\n", [5, bool_to_nat (s.status_byte.testBit 5)]⟩,
       ⟨"Bit %d (LSB -> MSB): %d\n", [6, bool_to_nat (s.status_byte.testBit 6)]⟩,
       ⟨"Bit %d (LSB -> MSB): %d\n", [7, bool_to_nat (s.status_byte.testBit 7)]⟩]⟩ := by
  obtain ⟨k, rfl⟩ : ∃ k, fuel = k + 9 := ⟨fuel - 9, by omega⟩
  simp [loop_lsb_msb, valor_lsb_msb_eq, printf]

/-- The loop MSB -> LSB, entered at `i = 7` with fuel for its nine evaluations of the
condition, prints the eight bits in descending order and leaves `status_byte` alone. -/
theorem loop_msb_lsb_run (fuel : Nat) (s : State) (h : 9 ≤ fuel) :
    loop_msb_lsb fuel 7 s = some ⟨s.status_byte, s.stdout ++
      [⟨"Bit %d (MSB -> LSB): %d\n", [7, bool_to_nat (s.status_byte.testBit 7)]⟩,
       ⟨"Bit %d (MSB -> LSB): %d\n", [6, bool_to_nat (s.status_byte.testBit 6)]⟩,
       ⟨"Bit %d (MSB -> LSB): %d\n", [5, bool_to_nat (s.status_byte.testBit 5)]⟩,
       ⟨"Bit %d (MSB -> LSB): %d\n", [4, bool_to_nat (s.status_byte.testBit 4)]⟩,
       ⟨"Bit %d (MSB -> LSB): %d\n", [3, bool_to_nat (s.status_byte.testBit 3)]⟩,
       ⟨"Bit %d (MSB -> LSB): %d\n", [2, bool_to_nat (s.status_byte.testBit 2)]⟩,
       ⟨"Bit %d (MSB -> LSB): %d\n", [1, bool_to_nat (s.status_byte.testBit 1)]⟩,
       ⟨"Bit %d (MSB -> LSB): %d\n", [0, bool_to_nat (s.status_byte.testBit 0)]⟩]⟩ := by
  obtain ⟨k, rfl⟩ : ∃ k, fuel = k + 9 := ⟨fuel - 9, by omega⟩
  simp [loop_msb_lsb, valor_msb_lsb_eq, printf]

/-- Without fuel for the ninth evaluation of the condition a loop has no result. -/
theorem loop_lsb_msb_short (s : State) : loop_lsb_msb 8 0 s = none := by
  simp [loop_lsb_msb, valor_lsb_msb_eq, printf]

/-- The part of `main` up to the first loop leaves `status_byte` alone. -/
theorem main_bit_field_status (order : BitOrder) (s : State) :
    (main_bit_field order s).status_byte = s.status_byte := by
  simp [main_bit_field, printf]

/-- The four calls of `extrai_bit_generico` in `main` all return, and `status_byte` is
left alone. -/
theorem main_generico_run (s : State) :
    ∃ out, main_generico s = some ⟨s.status_byte, out⟩ := by
  simp [main_generico, extrai_bit_generico_eq, printf]

/-- With fuel for the loops `main` finishes with exit code 0 and `status_byte` as it was. -/
theorem main_run (fuel : Nat) (order : BitOrder) (s : State) (h : 9 ≤ fuel) :
    ∃ out, main fuel order s = some (0, ⟨s.status_byte, out⟩) := by
  have key : ∀ t : State, t.status_byte = s.status_byte →
      ∃ out, (main_generico t).bind (fun u => some ((0 : Int), u))
        = some (0, ⟨s.status_byte, out⟩) := by
    intro t ht
    obtain ⟨out, hg⟩ := main_generico_run t
    exact ⟨out, by simp [hg, ht]⟩
  simp only [main, loop_lsb_msb_run _ _ h, loop_msb_lsb_run _ _ h, Option.bind_eq_bind,
    Option.some_bind, Option.pure_def]
  exact key _ (by simp [printf, main_bit_field_status])

/-- The result of `main` does not depend on the fuel, once there is enough of it. -/
theorem main_fuel (fuel : Nat) (order : BitOrder) (s : State) (h : 9 ≤ fuel) :
    main fuel order s = main 9 order s := by
  simp only [main, loop_lsb_msb_run _ _ h, loop_msb_lsb_run _ _ h,
    loop_lsb_msb_run 9 _ (le_refl 9), loop_msb_lsb_run 9 _ (le_refl 9),
    Option.bind_eq_bind, Option.some_bind, Option.pure_def]

/-! ## The loop bodies through their intermediates -/

/-- The body of the loop LSB -> MSB is the test `!= 0` applied under `mascara`. -/
theorem valor_lsb_msb_mascara (b : Nat) (i : Int) :
    valor_lsb_msb b i
      = (mascara i).map (fun m => to_uint8 (bool_to_nat ((b &&& m) != 0))) := by
  cases h : shl_int 1 i <;> simp [valor_lsb_msb, mascara, h]

/-- The body of the loop MSB -> LSB is the shift `>> i` applied to `bit_isolado`. -/
theorem valor_msb_lsb_bit_isolado (b : Nat) (i : Int) :
    valor_msb_lsb b i
      = (bit_isolado b i).bind (fun x => (shr_int x i).map to_uint8) := by
  cases h : shl_int 1 i with
  | none => simp [valor_msb_lsb, bit_isolado, mascara, h]
  | some m =>
    cases h2 : shr_int (to_uint8 (b &&& to_uint8 m)) i <;>
      simp [valor_msb_lsb, bit_isolado, mascara, h, h2]

/-- The mask of a counter in `[0,7]`. -/
theorem mascara_eq (i : Int) (h0 : 0 ≤ i) (h7 : i ≤ 7) :
    mascara i = some (2 ^ i.toNat) := by
  have hk : i.toNat ≤ 7 := by omega
  simp [mascara, shl_int_one i h0 (by omega), to_uint8_two_pow _ hk]

/-- The isolated bit of a counter in `[0,7]`. -/
theorem bit_isolado_eq (b : Nat) (i : Int) (h0 : 0 ≤ i) (h7 : i ≤ 7) :
    bit_isolado b i = some (b &&& 2 ^ i.toNat) := by
  have hk : i.toNat ≤ 7 := by omega
  simp [bit_isolado, mascara_eq i h0 h7, to_uint8_land_two_pow _ _ hk]

/-- A byte has no bit set at a position from 8 on. -/
theorem testBit_byte_high (b k : Nat) (hb : b < 256) (hk : 8 ≤ k) : b.testBit k = false := by
  apply Nat.testBit_lt_two_pow
  have hp : 2 ^ 8 ≤ 2 ^ k := Nat.pow_le_pow_right (by norm_num) hk
  omega

/-- The function `extrai_bit_generico` on an index in `[0,30]` is the bit test. -/
theorem extrai_bit_generico_eq_wide (b : Nat) (n : Int) (h0 : 0 ≤ n) (h30 : n ≤ 30) :
    extrai_bit_generico b n = some (b.testBit n.toNat) := by
  simp [extrai_bit_generico, shl_int_one n h0 h30, land_two_pow_bne]

end BitAccess

namespace BitAccess

/-! ## The claims -/

/-- C1: for every byte `b` and every index `i` in `[0,7]`, `extrai_bit_generico b i`
returns, and returns true exactly when `(b / 2^i) mod 2 = 1`, that is, exactly when bit `i`
of `b` (bit 0 the least significant) is set. -/
theorem extrai_bit_generico_spec (b : Nat) (i : Int) :
    b < 256 → 0 ≤ i → i ≤ 7 →
    extrai_bit_generico b i = some (decide (b / 2 ^ i.toNat % 2 = 1)) ∧
    extrai_bit_generico b i = some (b.testBit i.toNat) := by
  intro _ h0 h7
  refine ⟨?_, extrai_bit_generico_eq b i h0 h7⟩
  rw [extrai_bit_generico_eq b i h0 h7, Nat.testBit_to_div_mod]

/-- Witness of C1 at the byte 178 and index 4. -/
theorem extrai_bit_generico_spec_witness :
    extrai_bit_generico 178 4 = some (decide (178 / 2 ^ (4 : Int).toNat % 2 = 1)) ∧
    extrai_bit_generico 178 4 = some (Nat.testBit 178 (4 : Int).toNat) :=
  extrai_bit_generico_spec 178 4 (by decide) (by decide) (by decide)

/-- C2: round trip. For every byte `b` the eight calls `extrai_bit_generico b i`,
`i = 0..7`, return, and the sum of their results (as 0/1) times `2^i` is `b`. -/
theorem extrai_bit_generico_round_trip (b : Nat) (hb : b < 256) :
    ∃ r : Nat → Bool, (∀ i : Nat, i < 8 → extrai_bit_generico b i = some (r i)) ∧
      ∑ i in Finset.range 8, bool_to_nat (r i) * 2 ^ i = b := by
  refine ⟨fun i => b.testBit i, ?_, ?_⟩
  · intro i hi
    simpa using extrai_bit_generico_eq b i (by omega) (by omega)
  · simp only [bool_to_nat_testBit, Finset.sum_range_succ, Finset.sum_range_zero]
    norm_num
    omega

/-- Witness of C2 at the byte 178. -/
theorem extrai_bit_generico_round_trip_witness :
    ∃ r : Nat → Bool, (∀ i : Nat, i < 8 → extrai_bit_generico 178 i = some (r i)) ∧
      ∑ i in Finset.range 8, bool_to_nat (r i) * 2 ^ i = 178 :=
  extrai_bit_generico_round_trip 178 (by decide)

/-- C3: for `status_byte = 178` the calls `extrai_bit_generico 178 i`, `i = 0..7`, return
0,1,0,0,1,1,0,1, which is the reference table; the four calls made in `main` (bits 7, 6, 1,
0) print 1, 0, 1, 0. -/
theorem extrai_bit_generico_status_byte :
    (List.range 8).map (fun i : Nat => extrai_bit_generico status_byte i)
      = [some false, some true, some false, some false,
         some true, some true, some false, some true] ∧
    (List.range 8).map (fun i : Nat => (extrai_bit_generico 178 i).map bool_to_nat)
      = spec_table.map some ∧
    (main_generico State.initial).map (fun s => s.stdout.map Printed.args)
      = some [[], [1], [0], [1], [0]] := by
  refine ⟨?_, ?_, ?_⟩ <;> decide

/-- C4: for every byte `b` and index `i` in `[0,7]`, the mask-and-shift form of the loop
MSB -> LSB, with its 8-bit intermediates, returns a value that is 0 or 1, and is 1 exactly
when `extrai_bit_generico b i` is true. -/
theorem valor_msb_lsb_spec (b : Nat) (i : Int) :
    b < 256 → 0 ≤ i → i ≤ 7 →
    ∃ v, valor_msb_lsb b i = some v ∧ (v = 0 ∨ v = 1) ∧
      (v = 1 ↔ extrai_bit_generico b i = some true) := by
  intro _ h0 h7
  refine ⟨bool_to_nat (b.testBit i.toNat), valor_msb_lsb_eq b i h0 h7, ?_, ?_⟩
  · cases b.testBit i.toNat <;> simp [bool_to_nat]
  · rw [extrai_bit_generico_eq b i h0 h7]
    cases b.testBit i.toNat <;> simp [bool_to_nat]

/-- Witness of C4 at the byte 178 and index 5. -/
theorem valor_msb_lsb_spec_witness :
    ∃ v, valor_msb_lsb 178 5 = some v ∧ (v = 0 ∨ v = 1) ∧
      (v = 1 ↔ extrai_bit_generico 178 5 = some true) :=
  valor_msb_lsb_spec 178 5 (by decide) (by decide) (by decide)

/-- C5: under the LSB-first allocation of the bit fields, for every byte `b` the fields
`disponivel`, `carregado`, `ativo`, `configurado`, `validado`, `bloqueado`, `erro`,
`pronto` of the `Caracteristicas` view of `b` are, as 0/1, the results of
`extrai_bit_generico b 0`, ..., `extrai_bit_generico b 7`. -/
theorem caracteristicas_view_spec (b : Nat) :
    b < 256 →
    (extrai_bit_generico b 0).map bool_to_nat
      = some (Caracteristicas.view .lsb_first b).disponivel ∧
    (extrai_bit_generico b 1).map bool_to_nat
      = some (Caracteristicas.view .lsb_first b).carregado ∧
    (extrai_bit_generico b 2).map bool_to_nat
      = some (Caracteristicas.view .lsb_first b).ativo ∧
    (extrai_bit_generico b 3).map bool_to_nat
      = some (Caracteristicas.view .lsb_first b).configurado ∧
    (extrai_bit_generico b 4).map bool_to_nat
      = some (Caracteristicas.view .lsb_first b).validado ∧
    (extrai_bit_generico b 5).map bool_to_nat
      = some (Caracteristicas.view .lsb_first b).bloqueado ∧
    (extrai_bit_generico b 6).map bool_to_nat
      = some (Caracteristicas.view .lsb_first b).erro ∧
    (extrai_bit_generico b 7).map bool_to_nat
      = some (Caracteristicas.view .lsb_first b).pronto := by
  intro _
  simp [Caracteristicas.view, read_field_lsb_first, extrai_bit_generico_eq]

/-- Witness of C5 at the byte 178. -/
theorem caracteristicas_view_spec_witness :
    (extrai_bit_generico 178 0).map bool_to_nat
      = some (Caracteristicas.view .lsb_first 178).disponivel ∧
    (extrai_bit_generico 178 1).map bool_to_nat
      = some (Caracteristicas.view .lsb_first 178).carregado ∧
    (extrai_bit_generico 178 2).map bool_to_nat
      = some (Caracteristicas.view .lsb_first 178).ativo ∧
    (extrai_bit_generico 178 3).map bool_to_nat
      = some (Caracteristicas.view .lsb_first 178).configurado ∧
    (extrai_bit_generico 178 4).map bool_to_nat
      = some (Caracteristicas.view .lsb_first 178).validado ∧
    (extrai_bit_generico 178 5).map bool_to_nat
      = some (Caracteristicas.view .lsb_first 178).bloqueado ∧
    (extrai_bit_generico 178 6).map bool_to_nat
      = some (Caracteristicas.view .lsb_first 178).erro ∧
    (extrai_bit_generico 178 7).map bool_to_nat
      = some (Caracteristicas.view .lsb_first 178).pronto :=
  caracteristicas_view_spec 178 (by decide)

/-- C6: for `status_byte = 178`, under the LSB-first allocation, the named flags read from
bit 7 to bit 0 (`pronto`, `erro`, `bloqueado`, `validado`, `configurado`, `ativo`,
`carregado`, `disponivel`) are (1,0,1,1,0,0,1,0). -/
theorem caracteristicas_view_status_byte :
    ((Caracteristicas.view .lsb_first status_byte).pronto,
     (Caracteristicas.view .lsb_first status_byte).erro,
     (Caracteristicas.view .lsb_first status_byte).bloqueado,
     (Caracteristicas.view .lsb_first status_byte).validado,
     (Caracteristicas.view .lsb_first status_byte).configurado,
     (Caracteristicas.view .lsb_first status_byte).ativo,
     (Caracteristicas.view .lsb_first status_byte).carregado,
     (Caracteristicas.view .lsb_first status_byte).disponivel)
      = (1, 0, 1, 1, 0, 0, 1, 0) := by
  rfl

/-- C7: for every byte `b`, both loops run to their end, each prints eight values, and the
list of values printed by the loop MSB -> LSB is the reverse of the list of values printed
by the loop LSB -> MSB. -/
theorem loops_reverse (b fuel : Nat) :
    b < 256 → 9 ≤ fuel →
    ∃ s1 s2, loop_lsb_msb fuel 0 ⟨b, []⟩ = some s1 ∧ loop_msb_lsb fuel 7 ⟨b, []⟩ = some s2 ∧
      (valores s1.stdout).length = 8 ∧ (valores s2.stdout).length = 8 ∧
      valores s2.stdout = (valores s1.stdout).reverse := by
  intro _ h
  refine ⟨_, _, loop_lsb_msb_run _ _ h, loop_msb_lsb_run _ _ h, ?_, ?_, ?_⟩ <;>
    simp [valores]

/-- Witness of C7 at `status_byte = 178`, with fuel 9. -/
theorem loops_reverse_witness :
    ∃ s1 s2, loop_lsb_msb 9 0 ⟨178, []⟩ = some s1 ∧ loop_msb_lsb 9 7 ⟨178, []⟩ = some s2 ∧
      (valores s1.stdout).length = 8 ∧ (valores s2.stdout).length = 8 ∧
      valores s2.stdout = (valores s1.stdout).reverse :=
  loops_reverse 178 9 (by decide) (by decide)

/-- C8: under the LSB-first allocation `main` prints, in this order: the byte 178; the
eight bit-field values 0,1,0,0,1,1,0,1; the eight values of the loop LSB -> MSB
0,1,0,0,1,1,0,1 with the indices 0..7; the eight values of the loop MSB -> LSB
1,0,1,1,0,0,1,0 with the indices 7..0; the four function results 1,0,1,0. Each block is the
reference table of the specification read at the bit indices of its lines. -/
theorem main_prints (fuel : Nat) :
    9 ≤ fuel →
    ∃ s, main fuel .lsb_first State.initial = some (0, s) ∧
      s.stdout.map Printed.args =
        [[], [], [178], [], [], [],
         [0], [1], [0], [0], [1], [1], [0], [1],
         [],
         [0, 0], [1, 1], [2, 0], [3, 0], [4, 1], [5, 1], [6, 0], [7, 1],
         [],
         [7, 1], [6, 0], [5, 1], [4, 1], [3, 0], [2, 0], [1, 1], [0, 0],
         [],
         [1], [0], [1], [0]] ∧
      ((s.stdout.drop 6).take 8).map Printed.args
        = spec_table.map (fun v => [(v : Int)]) ∧
      ((s.stdout.drop 15).take 8).map Printed.args
        = ((List.range 8).zip spec_table).map (fun p => [(p.1 : Int), (p.2 : Int)]) ∧
      ((s.stdout.drop 24).take 8).map Printed.args
        = ((List.range 8).zip spec_table).reverse.map (fun p => [(p.1 : Int), (p.2 : Int)]) ∧
      ((s.stdout.drop 33).take 4).map Printed.args
        = [7, 6, 1, 0].map (fun i => [((spec_table.getD i 2 : Nat) : Int)]) := by
  intro h
  refine ⟨((main 9 .lsb_first State.initial).getD (1, State.initial)).2, ?_, ?_⟩
  · rw [main_fuel _ _ _ h]
    rfl
  · decide

/-- Witness of C8 with fuel 9. -/
theorem main_prints_witness :
    ∃ s, main 9 .lsb_first State.initial = some (0, s) ∧
      s.stdout.map Printed.args =
        [[], [], [178], [], [], [],
         [0], [1], [0], [0], [1], [1], [0], [1],
         [],
         [0, 0], [1, 1], [2, 0], [3, 0], [4, 1], [5, 1], [6, 0], [7, 1],
         [],
         [7, 1], [6, 0], [5, 1], [4, 1], [3, 0], [2, 0], [1, 1], [0, 0],
         [],
         [1], [0], [1], [0]] ∧
      ((s.stdout.drop 6).take 8).map Printed.args
        = spec_table.map (fun v => [(v : Int)]) ∧
      ((s.stdout.drop 15).take 8).map Printed.args
        = ((List.range 8).zip spec_table).map (fun p => [(p.1 : Int), (p.2 : Int)]) ∧
      ((s.stdout.drop 24).take 8).map Printed.args
        = ((List.range 8).zip spec_table).reverse.map (fun p => [(p.1 : Int), (p.2 : Int)]) ∧
      ((s.stdout.drop 33).take 4).map Printed.args
        = [7, 6, 1, 0].map (fun i => [((spec_table.getD i 2 : Nat) : Int)]) :=
  main_prints 9 (by decide)

/-- C9: `main` returns exit code 0 on every run: with fuel for its loops it returns, with
exit code 0, whatever the bit-field allocation and the state it is entered in; and no run,
whatever the fuel, returns another exit code. -/
theorem main_exit_code (fuel : Nat) (order : BitOrder) (s : State) :
    9 ≤ fuel →
    (∃ t, main fuel order s = some (0, t)) ∧
    ∀ (f : Nat) (r : Int) (t : State), main f order s = some (r, t) → r = 0 := by
  intro h
  refine ⟨?_, ?_⟩
  · obtain ⟨out, hm⟩ := main_run fuel order s h
    exact ⟨_, hm⟩
  · intro f r t hm
    simp only [main, Option.bind_eq_bind, Option.pure_def, Option.bind_eq_some,
      Option.some.injEq, Prod.mk.injEq] at hm
    obtain ⟨_, _, _, _, _, _, hr, _⟩ := hm
    exact hr.symm

/-- Witness of C9 at the initial state, LSB-first allocation, fuel 9. -/
theorem main_exit_code_witness :
    (∃ t, main 9 .lsb_first State.initial = some (0, t)) ∧
    ∀ (f : Nat) (r : Int) (t : State),
      main f .lsb_first State.initial = some (r, t) → r = 0 :=
  main_exit_code 9 .lsb_first State.initial (by decide)

/-- C10: `status_byte` is initialised to `0b10110010`, which is 178 = 128 + 32 + 16 + 2;
`main`, entered in any state, finishes with `status_byte` as it found it, so that after
`main` the value is still 178. -/
theorem status_byte_unchanged (fuel : Nat) (order : BitOrder) :
    9 ≤ fuel →
    status_byte = 0b10110010 ∧ status_byte = 178 ∧ status_byte = 128 + 32 + 16 + 2 ∧
    State.initial.status_byte = 178 ∧
    (∀ s : State, ∃ t, main fuel order s = some (0, t) ∧ t.status_byte = s.status_byte) ∧
    ∃ t, main fuel order State.initial = some (0, t) ∧ t.status_byte = 178 := by
  intro h
  refine ⟨rfl, rfl, rfl, rfl, ?_, ?_⟩
  · intro s
    obtain ⟨out, hm⟩ := main_run fuel order s h
    exact ⟨_, hm, rfl⟩
  · obtain ⟨out, hm⟩ := main_run fuel order State.initial h
    exact ⟨_, hm, rfl⟩

/-- Witness of C10 with fuel 9 and the LSB-first allocation. -/
theorem status_byte_unchanged_witness :
    status_byte = 0b10110010 ∧ status_byte = 178 ∧ status_byte = 128 + 32 + 16 + 2 ∧
    State.initial.status_byte = 178 ∧
    (∀ s : State, ∃ t, main 9 .lsb_first s = some (0, t) ∧ t.status_byte = s.status_byte) ∧
    ∃ t, main 9 .lsb_first State.initial = some (0, t) ∧ t.status_byte = 178 :=
  status_byte_unchanged 9 .lsb_first (by decide)

/-- C11: the function encapsulates the logic of the loop LSB -> MSB. For every byte `b` and
index `i` in `[0,7]`, the value of the loop body, computed with the mask truncated to
`uint8_t`, is the result of `extrai_bit_generico b i`, computed with the mask at `int`
width, as 0/1; both have a result. -/
theorem valor_lsb_msb_generico (b : Nat) (i : Int) :
    b < 256 → 0 ≤ i → i ≤ 7 →
    (∃ r, extrai_bit_generico b i = some r ∧ valor_lsb_msb b i = some (bool_to_nat r)) ∧
    valor_lsb_msb b i = (extrai_bit_generico b i).map bool_to_nat := by
  intro _ h0 h7
  refine ⟨⟨b.testBit i.toNat, extrai_bit_generico_eq b i h0 h7, valor_lsb_msb_eq b i h0 h7⟩, ?_⟩
  rw [extrai_bit_generico_eq b i h0 h7, valor_lsb_msb_eq b i h0 h7]
  rfl

/-- Witness of C11 at the byte 178 and index 1. -/
theorem valor_lsb_msb_generico_witness :
    (∃ r, extrai_bit_generico 178 1 = some r ∧ valor_lsb_msb 178 1 = some (bool_to_nat r)) ∧
    valor_lsb_msb 178 1 = (extrai_bit_generico 178 1).map bool_to_nat :=
  valor_lsb_msb_generico 178 1 (by decide) (by decide) (by decide)

/-- C12: for every byte `b` and index `i` in `[0,7]`, the shift `1 << i` is `2^i` and is
unchanged by the conversion to `uint8_t` (`mascara` is `2^i`), and the isolated value
`bit_isolado = b & mascara` is either 0 or exactly `2^i`. -/
theorem mascara_bit_isolado_spec (b : Nat) (i : Int) :
    b < 256 → 0 ≤ i → i ≤ 7 →
    shl_int 1 i = some (2 ^ i.toNat) ∧ 2 ^ i.toNat % 256 = 2 ^ i.toNat ∧
    mascara i = some (2 ^ i.toNat) ∧
    ∃ x, bit_isolado b i = some x ∧ x = b &&& 2 ^ i.toNat ∧ (x = 0 ∨ x = 2 ^ i.toNat) := by
  intro _ h0 h7
  have hk : i.toNat ≤ 7 := by omega
  refine ⟨shl_int_one i h0 (by omega), to_uint8_two_pow _ hk, mascara_eq i h0 h7,
    b &&& 2 ^ i.toNat, bit_isolado_eq b i h0 h7, rfl, ?_⟩
  rw [Nat.and_two_pow]
  cases b.testBit i.toNat <;> simp

/-- Witness of C12 at the byte 178 and index 7. -/
theorem mascara_bit_isolado_spec_witness :
    shl_int 1 7 = some (2 ^ (7 : Int).toNat) ∧
    2 ^ (7 : Int).toNat % 256 = 2 ^ (7 : Int).toNat ∧
    mascara 7 = some (2 ^ (7 : Int).toNat) ∧
    ∃ x, bit_isolado 178 7 = some x ∧ x = 178 &&& 2 ^ (7 : Int).toNat ∧
      (x = 0 ∨ x = 2 ^ (7 : Int).toNat) :=
  mascara_bit_isolado_spec 178 7 (by decide) (by decide) (by decide)

/-- C13: the binary string `10110010` in the line that `main` prints for the binary
representation is the eight digits obtained by extracting the bits of `status_byte` from
bit 7 down to bit 0, and the line before it prints the decimal value 178 with `%d`. -/
theorem main_prints_byte (fuel : Nat) (order : BitOrder) :
    9 ≤ fuel →
    binary_digits status_byte = some "10110010" ∧
    ∃ s, main fuel order State.initial = some (0, s) ∧
      s.stdout[2]? = some ⟨"Byte de Status (Decimal): %d\n", [178]⟩ ∧
      s.stdout[3]? = some ⟨"Byte de Status (Binário): 10110010\n", []⟩ ∧
      ∃ d, binary_digits status_byte = some d ∧
        s.stdout[3]? = some ⟨"Byte de Status (Binário): " ++ d ++ "\n", []⟩ := by
  intro h
  refine ⟨by decide, ((main 9 order State.initial).getD (1, State.initial)).2, ?_, ?_⟩
  · rw [main_fuel _ _ _ h]
    cases order <;> rfl
  · cases order <;> exact ⟨by decide, by decide, "10110010", by decide, by decide⟩

/-- Witness of C13 with fuel 9 and the LSB-first allocation. -/
theorem main_prints_byte_witness :
    binary_digits status_byte = some "10110010" ∧
    ∃ s, main 9 .lsb_first State.initial = some (0, s) ∧
      s.stdout[2]? = some ⟨"Byte de Status (Decimal): %d\n", [178]⟩ ∧
      s.stdout[3]? = some ⟨"Byte de Status (Binário): 10110010\n", []⟩ ∧
      ∃ d, binary_digits status_byte = some d ∧
        s.stdout[3]? = some ⟨"Byte de Status (Binário): " ++ d ++ "\n", []⟩ :=
  main_prints_byte 9 .lsb_first (by decide)

/-- C14: for every byte `b` and every index `n` with `8 ≤ n ≤ 30`, the call
`extrai_bit_generico b n` has a result and it is false. The index is neither wrapped
modulo 8 nor clamped to 7: when bit `n mod 8` of `b` is set the result differs from that
at `n mod 8`, and when bit 7 of `b` is set it differs from that at 7. -/
theorem extrai_bit_generico_out_of_range (b : Nat) (n : Int) :
    b < 256 → 8 ≤ n → n ≤ 30 →
    extrai_bit_generico b n = some false ∧
    (b.testBit (n % 8).toNat = true →
      extrai_bit_generico b (n % 8) = some true ∧
      extrai_bit_generico b n ≠ extrai_bit_generico b (n % 8)) ∧
    (b.testBit 7 = true →
      extrai_bit_generico b 7 = some true ∧
      extrai_bit_generico b n ≠ extrai_bit_generico b 7) := by
  intro hb h8 h30
  have hn : extrai_bit_generico b n = some false := by
    rw [extrai_bit_generico_eq_wide b n (by omega) h30,
      testBit_byte_high b n.toNat hb (by omega)]
  have hw : extrai_bit_generico b (n % 8) = some (b.testBit (n % 8).toNat) :=
    extrai_bit_generico_eq b (n % 8) (by omega) (by omega)
  have h7 : extrai_bit_generico b 7 = some (b.testBit 7) := by
    simpa using extrai_bit_generico_eq b 7 (by decide) (by decide)
  refine ⟨hn, ?_, ?_⟩
  · intro ht
    rw [hn, hw, ht]
    exact ⟨rfl, by simp⟩
  · intro ht
    rw [hn, h7, ht]
    exact ⟨rfl, by simp⟩

/-- Witness of C14 at the byte 255 and index 8. -/
theorem extrai_bit_generico_out_of_range_witness :
    extrai_bit_generico 255 8 = some false ∧
    (Nat.testBit 255 ((8 : Int) % 8).toNat = true →
      extrai_bit_generico 255 (8 % 8) = some true ∧
      extrai_bit_generico 255 8 ≠ extrai_bit_generico 255 (8 % 8)) ∧
    (Nat.testBit 255 7 = true →
      extrai_bit_generico 255 7 = some true ∧
      extrai_bit_generico 255 8 ≠ extrai_bit_generico 255 7) :=
  extrai_bit_generico_out_of_range 255 8 (by decide) (by decide) (by decide)

end BitAccess
